import Mathlib

/-!
Verification of the tradingview-capital-webhook repository.

Shallow embedding of the three source files:
  * `app/capital_client.py` — broker session lifecycle and order execution,
  * `app/main.py`           — webhook payload extraction, alias resolution, validation,
  * `app/schemas.py`        — the alternative TradingViewAlert schema.

Python floats (`time.time()`, prices, balances) are modelled as rationals;
HTTP responses are passed in explicitly as response records, and the network
effects a routine performs are returned as an explicit call trace.
-/

set_option maxHeartbeats 1000000

namespace TVWebhook

/-- A scalar value as it appears in a decoded payload dictionary:
either a string or a number (Python floats modelled as rationals). -/
inductive Value where
  | str (s : String)
  | num (q : ℚ)
deriving DecidableEq, Repr

/-! ## Session manager (`app/capital_client.py`) -/

/-- The module-level session state of `capital_client.py`:
`TOKENS = {"CST": None, "X-SECURITY-TOKEN": None}` and `LAST_AUTH = 0.0`. -/
structure SessionState where
  cst : Option String
  xst : Option String
  last_auth : ℚ
deriving DecidableEq, Repr

/-- The state at module import time. -/
def initialSession : SessionState := { cst := none, xst := none, last_auth := 0 }

/-- `_auth_headers()`: returns the two tokens, failing (RuntimeError
"Not authenticated") when either is missing.  `if not TOKENS["CST"] or not
TOKENS["X-SECURITY-TOKEN"]` treats both `None` and the empty string as falsy. -/
def auth_headers (s : SessionState) : Option (String × String) :=
  match s.cst, s.xst with
  | some c, some x => if c = "" ∨ x = "" then none else some (c, x)
  | _, _ => none

/-- The broker's response to `POST /api/v1/session` as `login` reads it:
HTTP status and the two optional token response headers. -/
structure LoginResponse where
  status : ℕ
  cst : Option String
  xst : Option String
deriving DecidableEq, Repr

/-- `httpx.Response.raise_for_status()` passes exactly on 2xx statuses. -/
def is2xx (status : ℕ) : Prop := 200 ≤ status ∧ status < 300

instance (status : ℕ) : Decidable (is2xx status) := by
  unfold is2xx; infer_instance

/-- Network effects issued by the session routines. -/
inductive NetCall where
  | postSession
  | putSession (accountId : String)
deriving DecidableEq, Repr

/-- How one `login(...)` invocation ends. -/
inductive LoginOutcome where
  | ok
  | httpError (status : ℕ)
  | notAuthenticated
deriving DecidableEq, Repr

/-- Result of one `login(...)` invocation: the session state afterwards, the
network calls issued, and the outcome.  On an exception the state still
reflects every global mutation performed before the raise. -/
structure LoginResult where
  state : SessionState
  calls : List NetCall
  outcome : LoginOutcome
deriving DecidableEq, Repr

/-- `login(force)` from `capital_client.py`.  `now` stands for `time.time()`
(the two reads inside one invocation are merged into one instant), `resp` is
the broker's response to the session POST, and `accountId` is the optional
`CAPITAL_ACCOUNT_ID` configuration (Python treats `""` like unset).

Source behaviour: skip when `not force and time.time() - LAST_AUTH < 420`;
otherwise POST `/api/v1/session`, `raise_for_status()`, store the two token
headers as returned (possibly `None`), set `LAST_AUTH`, then, when an account
id is configured, switch the account using `_auth_headers()` (which raises if
a token is missing). -/
def login (accountId : Option String) (force : Bool) (now : ℚ)
    (resp : LoginResponse) (s : SessionState) : LoginResult :=
  if force = false ∧ now - s.last_auth < 420 then
    { state := s, calls := [], outcome := .ok }
  else if is2xx resp.status then
    let s' : SessionState := { cst := resp.cst, xst := resp.xst, last_auth := now }
    match accountId with
    | none => { state := s', calls := [.postSession], outcome := .ok }
    | some aid =>
      if aid = "" then { state := s', calls := [.postSession], outcome := .ok }
      else
        match auth_headers s' with
        | none => { state := s', calls := [.postSession], outcome := .notAuthenticated }
        | some _ =>
          { state := s', calls := [.postSession, .putSession aid], outcome := .ok }
  else
    { state := s, calls := [.postSession], outcome := .httpError resp.status }

/-- When the freshness gate does not fire and the POST succeeds, `login`
stores the response headers verbatim, stamps `LAST_AUTH := now`, and the
trace holds exactly one session POST. -/
theorem login_run_effects (accountId : Option String) (now : ℚ)
    (resp : LoginResponse) (s : SessionState)
    (hfresh : ¬ (now - s.last_auth < 420)) (h2xx : is2xx resp.status) :
    (login accountId false now resp s).state =
      { cst := resp.cst, xst := resp.xst, last_auth := now } ∧
    (login accountId false now resp s).calls.count .postSession = 1 := by
  unfold login
  rw [if_neg (by simp [hfresh]), if_pos h2xx]
  rcases accountId with _ | aid
  · exact ⟨rfl, rfl⟩
  · dsimp only
    by_cases he : aid = ""
    · rw [if_pos he]; exact ⟨rfl, rfl⟩
    · rw [if_neg he]
      rcases hah : auth_headers { cst := resp.cst, xst := resp.xst, last_auth := now } with _ | p
      · exact ⟨rfl, rfl⟩
      · refine ⟨rfl, ?_⟩
        simp [List.count_cons]

/-- When the session is fresh, `login(force=False)` returns immediately:
no network call, no state change. -/
theorem login_skip (accountId : Option String) (now : ℚ)
    (resp : LoginResponse) (s : SessionState) (h : now - s.last_auth < 420) :
    login accountId false now resp s = { state := s, calls := [], outcome := .ok } := by
  unfold login
  rw [if_pos ⟨rfl, h⟩]

/-- C1: two `login(force=False)` calls; the first one actually logs in
(2xx) and stamps its time.  A second call strictly within 420 seconds issues
no network call and leaves the state unchanged; a second call 420 or more
seconds later issues a new session POST. -/
theorem login_freshness_window (accountId : Option String) (s0 : SessionState)
    (now1 now2 : ℚ) (resp1 resp2 : LoginResponse)
    (hfirst : 420 ≤ now1 - s0.last_auth) (h2xx : is2xx resp1.status) :
    (login accountId false now1 resp1 s0).calls.count .postSession = 1 ∧
    (0 ≤ now2 - now1 → now2 - now1 < 420 →
      login accountId false now2 resp2 (login accountId false now1 resp1 s0).state =
        { state := (login accountId false now1 resp1 s0).state, calls := [],
          outcome := .ok }) ∧
    (420 ≤ now2 - now1 →
      NetCall.postSession ∈
        (login accountId false now2 resp2 (login accountId false now1 resp1 s0).state).calls) := by
  obtain ⟨hstate, hcount⟩ :=
    login_run_effects accountId now1 resp1 s0 (by linarith) h2xx
  refine ⟨hcount, ?_, ?_⟩
  · intro _ hwin
    exact login_skip accountId now2 resp2 _ (by rw [hstate]; simpa using hwin)
  · intro hlate
    set s1 := (login accountId false now1 resp1 s0).state with hs1
    have hfresh2 : ¬ (now2 - s1.last_auth < 420) := by
      rw [hstate]; simpa using not_lt.mpr hlate
    unfold login
    rw [if_neg (by simp [hfresh2])]
    by_cases h2 : is2xx resp2.status
    · rw [if_pos h2]
      rcases accountId with _ | aid
      · simp
      · dsimp only
        by_cases he : aid = ""
        · rw [if_pos he]; simp
        · rw [if_neg he]
          rcases auth_headers _ with _ | p <;> simp
    · rw [if_neg h2]; simp

/-- C1 witness: concrete run of the freshness-window theorem. -/
theorem login_freshness_window_witness :
    (login none false 1000 { status := 200, cst := some "c", xst := some "x" }
        initialSession).calls.count .postSession = 1 ∧
    login none false 1100 { status := 200, cst := some "c2", xst := some "x2" }
        (login none false 1000 { status := 200, cst := some "c", xst := some "x" }
          initialSession).state =
      { state := (login none false 1000 { status := 200, cst := some "c", xst := some "x" }
          initialSession).state, calls := [], outcome := .ok } := by
  obtain ⟨h1, h2, _⟩ := login_freshness_window none initialSession 1000 1100
    { status := 200, cst := some "c", xst := some "x" }
    { status := 200, cst := some "c2", xst := some "x2" }
    (by norm_num [initialSession]) (by constructor <;> norm_num)
  exact ⟨h1, h2 (by norm_num) (by norm_num)⟩

/-- C2 counterexample: a 2xx login response carrying no token headers.
`login` returns successfully (no AuthenticationError is raised) while the
session is left with neither token. -/
theorem login_missing_tokens_no_error :
    (login none false 1000 { status := 200, cst := none, xst := none }
        initialSession).outcome = .ok ∧
    (login none false 1000 { status := 200, cst := none, xst := none }
        initialSession).state.cst = none ∧
    (login none false 1000 { status := 200, cst := none, xst := none }
        initialSession).state.xst = none := by
  unfold login
  rw [if_neg (by norm_num [initialSession]), if_pos (by constructor <;> norm_num)]
  exact ⟨rfl, rfl, rfl⟩

/-- C2 amended: `login` performs no token check.  On any 2xx response (with
no account switch configured) it stores the token headers exactly as
returned — absent ones included — and returns successfully; missing tokens
surface only later, when `_auth_headers` raises. -/
theorem login_no_authentication_error (now : ℚ) (resp : LoginResponse)
    (s : SessionState)
    (hfresh : ¬ (now - s.last_auth < 420)) (h2xx : is2xx resp.status) :
    (login none false now resp s).outcome = .ok ∧
    (login none false now resp s).state.cst = resp.cst ∧
    (login none false now resp s).state.xst = resp.xst := by
  unfold login
  rw [if_neg (by simp [hfresh]), if_pos h2xx]
  exact ⟨rfl, rfl, rfl⟩

/-- C2 amended witness: concrete 2xx response with only one token header. -/
theorem login_no_authentication_error_witness :
    (login none false 500 { status := 200, cst := none, xst := some "x" }
        initialSession).outcome = .ok ∧
    (login none false 500 { status := 200, cst := none, xst := some "x" }
        initialSession).state.cst = none ∧
    (login none false 500 { status := 200, cst := none, xst := some "x" }
        initialSession).state.xst = some "x" :=
  login_no_authentication_error 500 { status := 200, cst := none, xst := some "x" }
    initialSession (by norm_num [initialSession]) ⟨by norm_num, by norm_num⟩

/-- C10: on a 2xx login response the tokens are stored exactly as the broker
returned them (possibly absent) and `LAST_AUTH` is stamped unconditionally;
consequently, after a 2xx response lacking a token header, the session is
unauthenticated, yet a subsequent `login(force=False)` within 420 seconds
returns immediately with no network call and leaves it unauthenticated. -/
theorem login_fresh_timestamp_without_tokens (accountId : Option String)
    (s0 : SessionState) (now1 now2 : ℚ) (resp resp2 : LoginResponse)
    (hfresh : ¬ (now1 - s0.last_auth < 420)) (h2xx : is2xx resp.status)
    (hmiss : resp.cst = none ∨ resp.xst = none)
    (hwin : now2 - now1 < 420) :
    (login accountId false now1 resp s0).state =
      { cst := resp.cst, xst := resp.xst, last_auth := now1 } ∧
    auth_headers (login accountId false now1 resp s0).state = none ∧
    login accountId false now2 resp2 (login accountId false now1 resp s0).state =
      { state := (login accountId false now1 resp s0).state, calls := [],
        outcome := .ok } := by
  obtain ⟨hstate, -⟩ := login_run_effects accountId now1 resp s0 hfresh h2xx
  refine ⟨hstate, ?_, ?_⟩
  · rw [hstate]
    rcases hmiss with h | h
    · simp [auth_headers, h]
    · rcases hc : resp.cst with _ | c <;> simp [auth_headers, h, hc]
  · exact login_skip _ now2 resp2 _ (by rw [hstate]; simpa using hwin)

/-- C10 witness: concrete 2xx response with a missing CST header, second
call 100 seconds later. -/
theorem login_fresh_timestamp_without_tokens_witness :
    (login none false 1000 { status := 200, cst := none, xst := some "x" }
        initialSession).state =
      { cst := none, xst := some "x", last_auth := 1000 } ∧
    auth_headers (login none false 1000 { status := 200, cst := none, xst := some "x" }
        initialSession).state = none ∧
    login none false 1100 { status := 204, cst := some "a", xst := some "b" }
        (login none false 1000 { status := 200, cst := none, xst := some "x" }
          initialSession).state =
      { state := (login none false 1000 { status := 200, cst := none, xst := some "x" }
          initialSession).state, calls := [], outcome := .ok } :=
  login_fresh_timestamp_without_tokens none initialSession 1000 1100
    { status := 200, cst := none, xst := some "x" }
    { status := 204, cst := some "a", xst := some "b" }
    (by norm_num [initialSession]) ⟨by norm_num, by norm_num⟩
    (Or.inl rfl) (by norm_num)

/-! ## Order execution engine (`place_market_position`) -/

/-- The JSON payload built by `place_market_position` before the POST:
`direction.upper()`, always a MARKET order, and the stop-loss / take-profit
levels attached exactly when the corresponding argument is not `None`. -/
structure OrderPayload where
  epic : String
  direction : String
  size : ℚ
  orderType : String
  stopLoss : Option ℚ
  takeProfit : Option ℚ
deriving DecidableEq, Repr

/-- Response to `POST /api/v1/positions` as the code reads it: HTTP status,
the body's optional `"dealReference"` entry, and the decoded body itself. -/
structure SubmitResponse where
  status : ℕ
  dealReference : Option String
  body : List (String × Value)
deriving DecidableEq, Repr

/-- Response to `GET /api/v1/confirms/{ref}`. -/
structure ConfirmResponse where
  status : ℕ
  body : List (String × Value)
deriving DecidableEq, Repr

/-- Failures of the trading calls: RuntimeError from `_auth_headers`, or
`httpx.HTTPStatusError` from `raise_for_status` — whose message carries the
request URL, so a confirmation failure names the deal reference through
the `/api/v1/confirms/{ref}` URL. -/
inductive TradeError where
  | notAuthenticated
  | httpStatusError (status : ℕ) (url : String)
deriving DecidableEq, Repr

/-- Network effects of `place_market_position`. -/
inductive TradeCall where
  | postPositions (payload : OrderPayload)
  | getConfirms (ref : String)
deriving DecidableEq, Repr

/-- Python `str.upper()` for the ASCII strings this code passes
(`Char.toUpper` upper-cases exactly the ASCII letters). -/
def pyUpper (s : String) : String := String.mk (s.data.map Char.toUpper)

/-- Python truthiness of `r.json().get("dealReference")`:
`None` and `""` are falsy. -/
def truthyRef : Option String → Option String
  | some r => if r = "" then none else some r
  | none => none

/-- `place_market_position(epic, direction, size, stop_loss, take_profit)`
from `capital_client.py`, with the two broker responses passed in
explicitly.  Returns the network-call trace and the final result
(`c.json()` after a confirmed lookup, `r.json()` when no deal reference was
returned, or the raised error).  `direction.upper()` is modelled by
`pyUpper` (the repository only ever passes ASCII directions). -/
def place_market_position (epic direction : String) (size : ℚ)
    (stop_loss take_profit : Option ℚ) (s : SessionState)
    (subResp : SubmitResponse) (confResp : ConfirmResponse) :
    List TradeCall × Except TradeError (List (String × Value)) :=
  match auth_headers s with
  | none => ([], .error .notAuthenticated)
  | some _ =>
    let payload : OrderPayload :=
      { epic := epic, direction := pyUpper direction, size := size,
        orderType := "MARKET", stopLoss := stop_loss, takeProfit := take_profit }
    if is2xx subResp.status then
      match truthyRef subResp.dealReference with
      | some ref =>
        if is2xx confResp.status then
          ([.postPositions payload, .getConfirms ref], .ok confResp.body)
        else
          ([.postPositions payload, .getConfirms ref],
            .error (.httpStatusError confResp.status ("/api/v1/confirms/" ++ ref)))
      | none => ([.postPositions payload], .ok subResp.body)
    else
      ([.postPositions payload],
        .error (.httpStatusError subResp.status "/api/v1/positions"))

/-- C3: with an authenticated session and a 2xx submission, the engine first
POSTs the market order (stop-loss/take-profit attached exactly when present,
direction upper-cased); if the submission body holds a deal reference it
then GETs the confirmation with that reference and, on a 2xx confirmation,
returns the confirmation body; with no deal reference it performs no second
call and returns the submission body itself. -/
theorem place_submit_then_confirm (epic direction : String) (size : ℚ)
    (sl tp : Option ℚ) (s : SessionState) (subResp : SubmitResponse)
    (confResp : ConfirmResponse) (hdrs : String × String)
    (hauth : auth_headers s = some hdrs) (hsub : is2xx subResp.status) :
    (place_market_position epic direction size sl tp s subResp confResp).1.head? =
      some (.postPositions
        { epic := epic, direction := pyUpper direction, size := size,
          orderType := "MARKET", stopLoss := sl, takeProfit := tp }) ∧
    (∀ ref, truthyRef subResp.dealReference = some ref →
      (place_market_position epic direction size sl tp s subResp confResp).1 =
        [.postPositions
          { epic := epic, direction := pyUpper direction, size := size,
            orderType := "MARKET", stopLoss := sl, takeProfit := tp },
         .getConfirms ref] ∧
      (is2xx confResp.status →
        (place_market_position epic direction size sl tp s subResp confResp).2 =
          .ok confResp.body)) ∧
    (truthyRef subResp.dealReference = none →
      place_market_position epic direction size sl tp s subResp confResp =
        ([.postPositions
          { epic := epic, direction := pyUpper direction, size := size,
            orderType := "MARKET", stopLoss := sl, takeProfit := tp }],
         .ok subResp.body)) := by
  unfold place_market_position
  rw [hauth]
  dsimp only
  rw [if_pos hsub]
  refine ⟨?_, ?_, ?_⟩
  · rcases truthyRef subResp.dealReference with _ | ref
    · rfl
    · dsimp only
      by_cases hc : is2xx confResp.status
      · rw [if_pos hc]; rfl
      · rw [if_neg hc]; rfl
  · intro ref href
    rw [href]
    dsimp only
    by_cases hc : is2xx confResp.status
    · rw [if_pos hc]; exact ⟨rfl, fun _ => rfl⟩
    · rw [if_neg hc]; exact ⟨rfl, fun h => absurd h hc⟩
  · intro href
    rw [href]

/-- C3 witness: an authenticated session, 2xx submission carrying a deal
reference, and a 2xx confirmation. -/
theorem place_submit_then_confirm_witness :
    (place_market_position "US.AAPL" "buy" 2 (some 90) none
        { cst := some "c", xst := some "x", last_auth := 0 }
        { status := 200, dealReference := some "DR1", body := [("a", .num 1)] }
        { status := 200, body := [("dealStatus", .str "ACCEPTED")] }).1 =
      [.postPositions
        { epic := "US.AAPL", direction := "BUY", size := 2,
          orderType := "MARKET", stopLoss := some 90, takeProfit := none },
       .getConfirms "DR1"] ∧
    (place_market_position "US.AAPL" "buy" 2 (some 90) none
        { cst := some "c", xst := some "x", last_auth := 0 }
        { status := 200, dealReference := some "DR1", body := [("a", .num 1)] }
        { status := 200, body := [("dealStatus", .str "ACCEPTED")] }).2 =
      .ok [("dealStatus", .str "ACCEPTED")] := by
  obtain ⟨-, h2, -⟩ := place_submit_then_confirm "US.AAPL" "buy" 2 (some 90) none
    { cst := some "c", xst := some "x", last_auth := 0 }
    { status := 200, dealReference := some "DR1", body := [("a", .num 1)] }
    { status := 200, body := [("dealStatus", .str "ACCEPTED")] }
    ("c", "x") (by simp [auth_headers]) ⟨by norm_num, by norm_num⟩
  obtain ⟨htrace, hres⟩ := h2 "DR1" rfl
  refine ⟨?_, hres ⟨by norm_num, by norm_num⟩⟩
  rw [htrace]
  rfl

/-- C4: when submission succeeds with a deal reference but the confirmation
lookup returns a non-2xx status, the engine raises an HTTP-status error
whose URL is `/api/v1/confirms/{ref}` — it carries the deal reference from
the successful submission (the URL ends with the reference). -/
theorem place_confirm_failure_keeps_reference (epic direction : String)
    (size : ℚ) (sl tp : Option ℚ) (s : SessionState) (subResp : SubmitResponse)
    (confResp : ConfirmResponse) (hdrs : String × String) (ref : String)
    (hauth : auth_headers s = some hdrs) (hsub : is2xx subResp.status)
    (href : truthyRef subResp.dealReference = some ref)
    (hconf : ¬ is2xx confResp.status) :
    (place_market_position epic direction size sl tp s subResp confResp).2 =
      .error (.httpStatusError confResp.status ("/api/v1/confirms/" ++ ref)) ∧
    (∃ pre, "/api/v1/confirms/" ++ ref = pre ++ ref) := by
  refine ⟨?_, "/api/v1/confirms/", rfl⟩
  unfold place_market_position
  rw [hauth]
  dsimp only
  rw [if_pos hsub, href]
  dsimp only
  rw [if_neg hconf]

/-- C4 witness: 2xx submission with deal reference "DR1", confirmation
lookup answering 503. -/
theorem place_confirm_failure_keeps_reference_witness :
    (place_market_position "US.AAPL" "sell" 1 none none
        { cst := some "c", xst := some "x", last_auth := 0 }
        { status := 200, dealReference := some "DR1", body := [] }
        { status := 503, body := [] }).2 =
      .error (.httpStatusError 503 "/api/v1/confirms/DR1") :=
  (place_confirm_failure_keeps_reference "US.AAPL" "sell" 1 none none
    { cst := some "c", xst := some "x", last_auth := 0 }
    { status := 200, dealReference := some "DR1", body := [] }
    { status := 503, body := [] } ("c", "x") "DR1"
    (by simp [auth_headers]) ⟨by norm_num, by norm_num⟩ rfl
    (by intro h; exact absurd h.2 (by norm_num))).1

/-! ## Account selection (`pick_available_account_available`) -/

/-- One entry of the `"accounts"` list as the code reads it: the Python
truthiness of `acc.get("preferred")` and `float(acc["balance"]["available"])`.
The account id is carried along but never read by the selection code. -/
structure Account where
  accountId : String
  preferred : Bool
  available : ℚ
deriving DecidableEq, Repr

/-- RuntimeError("No accounts returned"). -/
inductive AccountsError where
  | noAccounts
deriving DecidableEq, Repr

/-- `pick_available_account_available()` from `capital_client.py`, with the
accounts list of the `get_accounts()` response passed in explicitly (a
missing `"accounts"` key behaves like the empty list, via `data.get`).
The loop returns the first account whose `"preferred"` is truthy; otherwise
the first account; otherwise it raises. -/
def pick_available_account_available (accounts : List Account) :
    Except AccountsError ℚ :=
  match accounts.find? (fun a => a.preferred) with
  | some acc => .ok acc.available
  | none =>
    match accounts with
    | [] => .error .noAccounts
    | a :: _ => .ok a.available

/-- C5: selection returns the available balance of a preferred account when
one exists, of the first account when none is flagged, and fails with the
no-accounts error on an empty list; on the spec's concrete two-account list
it picks account 2's balance of 900. -/
theorem pick_account_selection (accounts : List Account) :
    ((∃ acc ∈ accounts, acc.preferred) →
      ∃ acc ∈ accounts, acc.preferred ∧
        pick_available_account_available accounts = .ok acc.available) ∧
    ((∀ acc ∈ accounts, ¬ acc.preferred) → ∀ a rest, accounts = a :: rest →
      pick_available_account_available accounts = .ok a.available) ∧
    (accounts = [] →
      pick_available_account_available accounts = .error .noAccounts) ∧
    pick_available_account_available
      [{ accountId := "1", preferred := false, available := 500 },
       { accountId := "2", preferred := true, available := 900 }] = .ok 900 := by
  refine ⟨?_, ?_, ?_, rfl⟩
  · rintro ⟨acc, hmem, hpref⟩
    rcases hfind : accounts.find? (fun a => a.preferred) with _ | fnd
    · exact absurd (List.find?_eq_none.mp hfind acc hmem) (by simp [hpref])
    · refine ⟨fnd, List.mem_of_find?_eq_some hfind, ?_, ?_⟩
      · simpa using List.find?_some hfind
      · unfold pick_available_account_available
        rw [hfind]
  · intro hnone a rest hcons
    have hfind : accounts.find? (fun a => a.preferred) = none := by
      rw [List.find?_eq_none]
      intro x hx
      simpa using hnone x hx
    unfold pick_available_account_available
    rw [hfind, hcons]
  · intro h
    subst h
    rfl

/-- C5 witness: a singleton unflagged list falls back to the first account,
and the empty list fails. -/
theorem pick_account_selection_witness :
    pick_available_account_available
      [{ accountId := "7", preferred := false, available := 123 }] = .ok 123 ∧
    pick_available_account_available [] = .error .noAccounts ∧
    pick_available_account_available
      [{ accountId := "1", preferred := false, available := 500 },
       { accountId := "2", preferred := true, available := 900 }] = .ok 900 := by
  obtain ⟨-, hfb, hemp, hex⟩ :=
    pick_account_selection
      [{ accountId := "7", preferred := false, available := 123 }]
  obtain ⟨-, -, hemp', -⟩ := pick_account_selection ([] : List Account)
  obtain ⟨-, -, -, hex'⟩ :=
    pick_account_selection
      [{ accountId := "1", preferred := false, available := 500 },
       { accountId := "2", preferred := true, available := 900 }]
  exact ⟨hfb (by simp) _ _ rfl, hemp' rfl, hex'⟩

/-! ## Position sizer (spec-modelled: absent from `src/`) -/

/-- Sizing failures named by the spec (§4.3, §7). -/
inductive SizingError where
  | missingPrice
  | zeroNotional
deriving DecidableEq, Repr

/-- Rounding to a fixed 6-decimal precision. -/
def round6 (q : ℚ) : ℚ := round (q * 1000000) / 1000000

/-- Modelled from the spec: the Position Sizer's quantity computation
(`size_order`, spec §4.3) has no implementation under `src/`; only its
contract is given.  With `quantity` set, it is used directly.  With
`quantity` unset: `price` is required (MissingPriceError otherwise);
`notional = max(0, available_equity) * cash_fraction`; ZeroNotionalError
when `notional <= 0`; otherwise `quantity = round(notional / price, 6)`. -/
def size_order_quantity (quantity : Option ℚ) (cash_fraction : ℚ)
    (price : Option ℚ) (available_equity : ℚ) : Except SizingError ℚ :=
  match quantity with
  | some q => .ok q
  | none =>
    match price with
    | none => .error .missingPrice
    | some p =>
      let notional := max 0 available_equity * cash_fraction
      if notional ≤ 0 then .error .zeroNotional
      else .ok (round6 (notional / p))

/-- C6: with quantity unset, sizing fails with MissingPriceError when no
price is given; with price `p`, it fails with ZeroNotionalError exactly when
`max(0,e) * f ≤ 0`, and otherwise returns `round(e * f / p, 6)`. -/
theorem size_order_quantity_spec (f e : ℚ) :
    size_order_quantity none f none e = .error .missingPrice ∧
    (∀ p : ℚ, max 0 e * f ≤ 0 →
      size_order_quantity none f (some p) e = .error .zeroNotional) ∧
    (∀ p : ℚ, 0 < max 0 e * f →
      size_order_quantity none f (some p) e = .ok (round6 (e * f / p))) := by
  refine ⟨rfl, ?_, ?_⟩
  · intro p hle
    unfold size_order_quantity
    dsimp only
    rw [if_pos hle]
  · intro p hpos
    have he : max 0 e = e := by
      rcases le_or_lt e 0 with h | h
      · rw [max_eq_left h] at hpos
        simp at hpos
      · exact max_eq_right h.le
    unfold size_order_quantity
    dsimp only
    rw [if_neg (not_le.mpr hpos), he]

/-- C6 witness: the spec's running example — equity 10000, fraction 0.10,
price 225 — gives quantity 4.444444; zero equity is rejected; a missing
price is rejected. -/
theorem size_order_quantity_spec_witness :
    size_order_quantity none (1/10) none 10000 = .error .missingPrice ∧
    size_order_quantity none (1/10) (some 225) 0 = .error .zeroNotional ∧
    size_order_quantity none (1/10) (some 225) 10000 = .ok (1111111/250000) := by
  obtain ⟨h1, -, h3⟩ := size_order_quantity_spec (1/10) 10000
  obtain ⟨-, h2, -⟩ := size_order_quantity_spec (1/10) 0
  refine ⟨h1, h2 225 (by norm_num), ?_⟩
  rw [h3 225 (by norm_num)]
  norm_num [round6, round_eq]

/-! ## Payload normalizer (`app/main.py`) -/

/-- Python `re` `\s` (Unicode mode): the six ASCII whitespace characters
plus the code points Python additionally classifies as whitespace. -/
def isPySpace (c : Char) : Bool :=
  c == ' ' || c == '\t' || c == '\n' || c == '\r' || c == '\x0b' || c == '\x0c' ||
  c == '\x1c' || c == '\x1d' || c == '\x1e' || c == '\x1f' || c == '\x85' ||
  c == '\xa0' || c == ' ' ||
  (decide (' ' ≤ c) && decide (c ≤ ' ')) ||
  c == ' ' || c == ' ' || c == ' ' || c == ' ' || c == '　'

/-- The line boundaries of Python `str.splitlines`. -/
def isLineBreak (c : Char) : Bool :=
  c == '\n' || c == '\r' || c == '\x0b' || c == '\x0c' || c == '\x1c' ||
  c == '\x1d' || c == '\x1e' || c == '\x85' || c == ' ' || c == ' '

/-- Worker for `pySplitlines`; `acc` holds the current line reversed. -/
def splitlinesAux : List Char → List Char → List (List Char)
  | [], acc => if acc.isEmpty then [] else [acc.reverse]
  | '\r' :: '\n' :: cs, acc => acc.reverse :: splitlinesAux cs []
  | c :: cs, acc =>
    if isLineBreak c then acc.reverse :: splitlinesAux cs []
    else splitlinesAux cs (c :: acc)

/-- Python `str.splitlines()` (no trailing empty line, `\r\n` is one
boundary). -/
def pySplitlines (s : String) : List (List Char) := splitlinesAux s.data []

/-- The key character class `[A-Za-z0-9_\-\.]` of the salvage regex
(`Char.isAlphanum` is exactly ASCII `[A-Za-z0-9]`). -/
def isKeyChar (c : Char) : Bool :=
  c.isAlphanum || c == '_' || c == '-' || c == '.'

/-- `re.match(r"\s*([A-Za-z0-9_\-\.]+)\s*[:=]\s*(.+?)\s*$", line)` on one
line (which contains no line-break character): skip leading whitespace, read
a non-empty run of key characters, skip whitespace, require `:` or `=`; the
lazy `(.+?)\s*$` then captures the remainder stripped of surrounding
whitespace — except that an all-whitespace non-empty remainder makes the
group capture its last character. -/
def matchLine (line : List Char) : Option (List Char × List Char) :=
  let afterSpace := line.dropWhile isPySpace
  let key := afterSpace.takeWhile isKeyChar
  if key.isEmpty then none
  else
    match (afterSpace.dropWhile isKeyChar).dropWhile isPySpace with
    | [] => none
    | c :: rest =>
      if c == ':' || c == '=' then
        let trimmed := ((rest.dropWhile isPySpace).reverse.dropWhile isPySpace).reverse
        if trimmed.isEmpty then
          match rest.reverse with
          | [] => none
          | last :: _ => some (key, [last])
        else some (key, trimmed)
      else none

/-- `re.match(r"^-?\d+(\.\d+)?$", v)`: optional minus, a non-empty integer
part, and an optional non-empty fraction part (`\d` restricted to the ASCII
digits the repository's senders use). -/
def isNumericValue (v : List Char) : Bool :=
  let v1 := if v.head? == some '-' then v.tail else v
  let ip := v1.takeWhile Char.isDigit
  let rest := v1.dropWhile Char.isDigit
  !ip.isEmpty &&
    (rest.isEmpty ||
      (rest.head? == some '.' && !rest.tail.isEmpty && rest.tail.all Char.isDigit))

/-- Decimal value of a list of ASCII digits. -/
def digitsToNat (l : List Char) : ℕ :=
  l.foldl (fun n c => 10 * n + (c.toNat - 48)) 0

/-- `float(v)` on a string accepted by `isNumericValue`. -/
def parseNumeric (v : List Char) : ℚ :=
  let neg := v.head? == some '-'
  let v1 := if neg then v.tail else v
  let ip := v1.takeWhile Char.isDigit
  let fp := (v1.dropWhile Char.isDigit).tail
  let mag : ℚ := (digitsToNat ip : ℚ) + (digitsToNat fp : ℚ) / (10 ^ fp.length)
  if neg then -mag else mag

/-- Python `k in d` on an insertion-ordered dict modelled as a list of
bindings. -/
def hasKey (d : List (String × Value)) (k : String) : Bool :=
  d.any (fun kv => kv.1 == k)

/-- Python `d.get(k)` / `d[k]`: the value of the first binding. -/
def dictGet (d : List (String × Value)) (k : String) : Option Value :=
  (d.find? (fun kv => kv.1 == k)).map Prod.snd

/-- Python dict assignment `d[k] = v` on an insertion-ordered dict:
replace in place when the key exists, append otherwise. -/
def dictSet (d : List (String × Value)) (k : String) (v : Value) :
    List (String × Value) :=
  if hasKey d k then
    d.map (fun kv => if kv.1 == k then (k, v) else kv)
  else d ++ [(k, v)]

/-- `_parse_text_body_to_dict(text)` from `main.py`: for each line of
`text.splitlines()`, a line matching the key/value regex contributes one
field (numeric-looking values coerced via `float`), other lines are
skipped. -/
def parse_text_body_to_dict (text : String) : List (String × Value) :=
  (pySplitlines text).foldl
    (fun d line =>
      match matchLine line with
      | none => d
      | some (k, v) =>
        dictSet d (String.mk k)
          (if isNumericValue v then .num (parseNumeric v) else .str (String.mk v)))
    []

/-- `_extract_payload` from `main.py`, with the outcome of
`json.loads(raw_str)` passed in as an oracle (`none` = the parse raised; the
declared content type is read only for logging, so it is not a parameter):
try JSON first, then the key/value salvage when it recovered at least one
field, and finally wrap the whole raw text under `"raw"`. -/
def extract_payload (jsonResult : Option (List (String × Value)))
    (raw : String) : List (String × Value) :=
  match jsonResult with
  | some d => d
  | none =>
    let kv := parse_text_body_to_dict raw
    if kv.isEmpty then [("raw", .str raw)] else kv

/-- C7: extraction tries the three steps in order with first success
winning — a successful JSON parse is returned as-is whatever the content
type was; on JSON failure the line salvage wins when it recovered at least
one field; otherwise the whole raw text is wrapped under `"raw"`.  The text
body `"symbol=AAPL\naction=sell\nprice=224.8"` is not JSON and salvages to
symbol/action strings with a numeric price of 224.8. -/
theorem extract_payload_steps (jsonResult : Option (List (String × Value)))
    (raw : String) :
    (∀ d, jsonResult = some d → extract_payload jsonResult raw = d) ∧
    (jsonResult = none → parse_text_body_to_dict raw ≠ [] →
      extract_payload jsonResult raw = parse_text_body_to_dict raw) ∧
    (jsonResult = none → parse_text_body_to_dict raw = [] →
      extract_payload jsonResult raw = [("raw", .str raw)]) ∧
    extract_payload none "symbol=AAPL\naction=sell\nprice=224.8" =
      [("symbol", .str "AAPL"), ("action", .str "sell"),
       ("price", .num (1124/5))] := by
  refine ⟨?_, ?_, ?_, ?_⟩
  · intro d hj
    rw [hj]
    rfl
  · intro hj hne
    rw [hj]
    unfold extract_payload
    dsimp only
    rw [if_neg (by simpa [List.isEmpty_iff] using hne)]
  · intro hj he
    rw [hj]
    unfold extract_payload
    dsimp only
    rw [he]
    rfl
  · have hstruct : extract_payload none "symbol=AAPL\naction=sell\nprice=224.8" =
        [("symbol", .str "AAPL"), ("action", .str "sell"),
         ("price", .num (parseNumeric "224.8".data))] := rfl
    rw [hstruct]
    have hnum : parseNumeric "224.8".data = 1124/5 := by
      show ((digitsToNat ['2','2','4'] : ℚ) +
        (digitsToNat ['8'] : ℚ) / (10 ^ (['8'].length))) = 1124/5
      norm_num [show digitsToNat ['2','2','4'] = 224 from rfl,
        show digitsToNat ['8'] = 8 from rfl]
    rw [hnum]

/-- C7 witness: a JSON success is returned unchanged, an unsalvageable body
is wrapped raw, and a `key: value` body with a junk line salvages the two
matching lines. -/
theorem extract_payload_steps_witness :
    extract_payload (some [("symbol", .str "TSLA")]) "ignored" =
      [("symbol", .str "TSLA")] ∧
    extract_payload none "???" = [("raw", .str "???")] ∧
    extract_payload none "symbol: AAPL\n???\nprice: -224.8" =
      [("symbol", .str "AAPL"), ("price", .num (-(1124/5)))] ∧
    extract_payload none "symbol=AAPL\naction=sell\nprice=224.8" =
      [("symbol", .str "AAPL"), ("action", .str "sell"),
       ("price", .num (1124/5))] := by
  obtain ⟨h1, -, h3, -⟩ := extract_payload_steps (some [("symbol", .str "TSLA")]) "ignored"
  obtain ⟨-, -, h3', hex⟩ := extract_payload_steps none "???"
  refine ⟨h1 _ rfl, h3' rfl (by decide), ?_, hex⟩
  have hstruct : extract_payload none "symbol: AAPL\n???\nprice: -224.8" =
      [("symbol", .str "AAPL"), ("price", .num (parseNumeric "-224.8".data))] := rfl
  rw [hstruct]
  have hnum : parseNumeric "-224.8".data = -(1124/5) := by
    show -((digitsToNat ['2','2','4'] : ℚ) +
      (digitsToNat ['8'] : ℚ) / (10 ^ (['8'].length))) = -(1124/5)
    norm_num [show digitsToNat ['2','2','4'] = 224 from rfl,
      show digitsToNat ['8'] = 8 from rfl]
  rw [hnum]

/-! ## Alias resolution (`_validate_alert_dict`, `main.py`) -/

/-- One alias rule of `_validate_alert_dict`:
`if src in d and dst not in d: d[dst] = d[src]`. -/
def applyAlias (src dst : String) (d : List (String × Value)) :
    List (String × Value) :=
  if hasKey d src && !hasKey d dst then
    match dictGet d src with
    | some v => dictSet d dst v
    | none => d
  else d

/-- The manual alias normalization of `_validate_alert_dict` (`main.py`
lines 103-110): exactly four one-directional rules, in source order —
`ticker→symbol`, `side→action`, `close→price`, `quantity→qty`. -/
def resolve_aliases (d : List (String × Value)) : List (String × Value) :=
  applyAlias "quantity" "qty"
    (applyAlias "close" "price"
      (applyAlias "side" "action"
        (applyAlias "ticker" "symbol" d)))

theorem find?_isSome_of_hasKey (d : List (String × Value)) (k : String)
    (h : hasKey d k = true) : (d.find? (fun kv => kv.1 == k)).isSome := by
  rw [List.find?_isSome]
  simpa [hasKey, List.any_eq_true] using h

theorem hasKey_iff_dictGet (d : List (String × Value)) (k : String) :
    hasKey d k = true ↔ ∃ v, dictGet d k = some v := by
  constructor
  · intro h
    have hs := find?_isSome_of_hasKey d k h
    rcases hf : d.find? (fun kv => kv.1 == k) with _ | kv
    · rw [hf] at hs; simp at hs
    · exact ⟨kv.2, by simp [dictGet, hf]⟩
  · rintro ⟨v, hv⟩
    unfold dictGet at hv
    rcases hf : d.find? (fun kv => kv.1 == k) with _ | kv
    · rw [hf] at hv; simp at hv
    · have hmem := List.mem_of_find?_eq_some hf
      have hp := List.find?_some hf
      unfold hasKey
      rw [List.any_eq_true]
      exact ⟨kv, hmem, hp⟩

theorem dictSet_of_not_hasKey (d : List (String × Value)) (k : String)
    (v : Value) (h : hasKey d k = false) : dictSet d k v = d ++ [(k, v)] := by
  unfold dictSet
  rw [if_neg (by simp [h])]

theorem hasKey_append_single (d : List (String × Value)) (k t : String)
    (v : Value) : hasKey (d ++ [(t, v)]) k = (hasKey d k || t == k) := by
  simp [hasKey]

theorem dictGet_append_left (d : List (String × Value)) (k t : String)
    (v : Value) (h : hasKey d k = true) :
    dictGet (d ++ [(t, v)]) k = dictGet d k := by
  unfold dictGet
  rw [List.find?_append]
  have hs := find?_isSome_of_hasKey d k h
  rcases hf : d.find? (fun kv => kv.1 == k) with _ | kv
  · rw [hf] at hs; simp at hs
  · rw [hf]; rfl

theorem dictGet_append_self (d : List (String × Value)) (k : String)
    (v : Value) (h : hasKey d k = false) :
    dictGet (d ++ [(k, v)]) k = some v := by
  unfold dictGet
  rw [List.find?_append]
  have hf : d.find? (fun kv => kv.1 == k) = none := by
    rw [List.find?_eq_none]
    intro x hx hbeq
    have hk : hasKey d k = true := by
      unfold hasKey
      rw [List.any_eq_true]
      exact ⟨x, hx, hbeq⟩
    rw [h] at hk
    exact Bool.false_ne_true hk
  rw [hf]
  simp

/-- Either the guard fails and the rule is the identity, or the rule appends
exactly the binding `(dst, d[src])`. -/
theorem applyAlias_cases (s t : String) (d : List (String × Value)) :
    applyAlias s t d = d ∨
    (hasKey d s = true ∧ hasKey d t = false ∧
      ∃ v, dictGet d s = some v ∧ applyAlias s t d = d ++ [(t, v)]) := by
  unfold applyAlias
  by_cases h : (hasKey d s && !hasKey d t) = true
  · right
    have h2 := h
    rw [Bool.and_eq_true] at h2
    obtain ⟨hs, ht'⟩ := h2
    have ht : hasKey d t = false := by simpa using ht'
    obtain ⟨v, hv⟩ := (hasKey_iff_dictGet d s).mp hs
    refine ⟨hs, ht, v, hv, ?_⟩
    rw [if_pos h, hv]
    exact dictSet_of_not_hasKey d t v ht
  · left
    rw [if_neg h]

theorem dictGet_applyAlias_of_hasKey (s t k : String)
    (d : List (String × Value)) (h : hasKey d k = true) :
    dictGet (applyAlias s t d) k = dictGet d k := by
  rcases applyAlias_cases s t d with heq | ⟨-, -, v, -, heq⟩ <;> rw [heq]
  exact dictGet_append_left d k t v h

theorem hasKey_applyAlias_mono (s t k : String) (d : List (String × Value))
    (h : hasKey d k = true) : hasKey (applyAlias s t d) k = true := by
  rcases applyAlias_cases s t d with heq | ⟨-, -, v, -, heq⟩ <;> rw [heq]
  · exact h
  · rw [hasKey_append_single, h]
    rfl

theorem hasKey_of_hasKey_applyAlias (s t k : String)
    (d : List (String × Value))
    (h : hasKey (applyAlias s t d) k = true) : hasKey d k = true ∨ k = t := by
  rcases applyAlias_cases s t d with heq | ⟨-, -, v, -, heq⟩
  · rw [heq] at h; exact Or.inl h
  · rw [heq, hasKey_append_single] at h
    rw [Bool.or_eq_true] at h
    rcases h with h' | h'
    · exact Or.inl h'
    · exact Or.inr (eq_of_beq h').symm

theorem hasKey_applyAlias_of_ne (s t k : String) (d : List (String × Value))
    (hne : k ≠ t) : hasKey (applyAlias s t d) k = hasKey d k := by
  rcases applyAlias_cases s t d with heq | ⟨-, -, v, -, heq⟩ <;> rw [heq]
  rw [hasKey_append_single]
  have hbeq : (t == k) = false := by
    simpa using Ne.symm hne
  rw [hbeq, Bool.or_false]

theorem applyAlias_fills (s t : String) (d : List (String × Value))
    (hs : hasKey d s = true) (ht : hasKey d t = false) :
    dictGet (applyAlias s t d) t = dictGet d s := by
  obtain ⟨v, hv⟩ := (hasKey_iff_dictGet d s).mp hs
  have hguard : (hasKey d s && !hasKey d t) = true := by
    rw [Bool.and_eq_true]
    exact ⟨hs, by simp [ht]⟩
  unfold applyAlias
  rw [if_pos hguard, hv]
  dsimp only
  rw [dictSet_of_not_hasKey d t v ht, dictGet_append_self d t v ht]

/-- C8 counterexample: the claimed alias table includes `action→side` and
`stop_loss_pct→sl_pct`, but the normalization applies neither rule — a
payload carrying only `action` (resp. `stop_loss_pct`) comes back unchanged,
with no `side` (resp. `sl_pct`) key filled in. -/
theorem resolve_aliases_missing_rules :
    resolve_aliases [("action", .str "buy")] = [("action", .str "buy")] ∧
    hasKey (resolve_aliases [("action", .str "buy")]) "side" = false ∧
    resolve_aliases [("stop_loss_pct", .num (1/5))] =
      [("stop_loss_pct", .num (1/5))] ∧
    hasKey (resolve_aliases [("stop_loss_pct", .num (1/5))]) "sl_pct" = false :=
  ⟨rfl, rfl, rfl, rfl⟩

/-- C8 amended: alias resolution applies exactly the four one-directional
rules `ticker→symbol`, `side→action`, `close→price`, `quantity→qty` (there
is no `action→side` and no `stop_loss_pct→sl_pct` rule), filling a canonical
name only when absent; it never fails, agrees with the input on every input
key, and only adds canonical keys.  On
`{ticker: "AAPL", side: "buy", close: 225.5}` it fills symbol, action and
price while retaining the originals. -/
theorem resolve_aliases_spec (d : List (String × Value)) :
    (∀ k, hasKey d k = true → dictGet (resolve_aliases d) k = dictGet d k) ∧
    (∀ k, hasKey (resolve_aliases d) k = true →
      hasKey d k = true ∨
        k ∈ (["symbol", "action", "price", "qty"] : List String)) ∧
    (hasKey d "ticker" = true → hasKey d "symbol" = false →
      dictGet (resolve_aliases d) "symbol" = dictGet d "ticker") ∧
    (hasKey d "side" = true → hasKey d "action" = false →
      dictGet (resolve_aliases d) "action" = dictGet d "side") ∧
    (hasKey d "close" = true → hasKey d "price" = false →
      dictGet (resolve_aliases d) "price" = dictGet d "close") ∧
    (hasKey d "quantity" = true → hasKey d "qty" = false →
      dictGet (resolve_aliases d) "qty" = dictGet d "quantity") ∧
    resolve_aliases
        [("ticker", .str "AAPL"), ("side", .str "buy"),
         ("close", .num (451/2))] =
      [("ticker", .str "AAPL"), ("side", .str "buy"), ("close", .num (451/2)),
       ("symbol", .str "AAPL"), ("action", .str "buy"),
       ("price", .num (451/2))] := by
  refine ⟨?_, ?_, ?_, ?_, ?_, ?_, rfl⟩
  · intro k hk
    have h1 := hasKey_applyAlias_mono "ticker" "symbol" k d hk
    have h2 := hasKey_applyAlias_mono "side" "action" k _ h1
    have h3 := hasKey_applyAlias_mono "close" "price" k _ h2
    unfold resolve_aliases
    rw [dictGet_applyAlias_of_hasKey _ _ k _ h3,
        dictGet_applyAlias_of_hasKey _ _ k _ h2,
        dictGet_applyAlias_of_hasKey _ _ k _ h1,
        dictGet_applyAlias_of_hasKey _ _ k _ hk]
  · intro k hk
    unfold resolve_aliases at hk
    rcases hasKey_of_hasKey_applyAlias "quantity" "qty" k _ hk with hk3 | rfl
    · rcases hasKey_of_hasKey_applyAlias "close" "price" k _ hk3 with hk2 | rfl
      · rcases hasKey_of_hasKey_applyAlias "side" "action" k _ hk2 with hk1 | rfl
        · rcases hasKey_of_hasKey_applyAlias "ticker" "symbol" k _ hk1 with hk0 | rfl
          · exact Or.inl hk0
          · exact Or.inr (by simp)
        · exact Or.inr (by simp)
      · exact Or.inr (by simp)
    · exact Or.inr (by simp)
  · intro hs ht
    obtain ⟨v, hv⟩ := (hasKey_iff_dictGet d "ticker").mp hs
    have hfill := applyAlias_fills "ticker" "symbol" d hs ht
    have hsym : hasKey (applyAlias "ticker" "symbol" d) "symbol" = true :=
      (hasKey_iff_dictGet _ _).mpr ⟨v, by rw [hfill, hv]⟩
    have hsym2 := hasKey_applyAlias_mono "side" "action" _ _ hsym
    have hsym3 := hasKey_applyAlias_mono "close" "price" _ _ hsym2
    unfold resolve_aliases
    rw [dictGet_applyAlias_of_hasKey _ _ _ _ hsym3,
        dictGet_applyAlias_of_hasKey _ _ _ _ hsym2,
        dictGet_applyAlias_of_hasKey _ _ _ _ hsym,
        hfill]
  · intro hs ht
    have hs1 := hasKey_applyAlias_mono "ticker" "symbol" "side" d hs
    have ht1 : hasKey (applyAlias "ticker" "symbol" d) "action" = false := by
      rw [hasKey_applyAlias_of_ne _ _ _ _ (by decide)]
      exact ht
    have hfill := applyAlias_fills "side" "action" _ hs1 ht1
    have hside1 : dictGet (applyAlias "ticker" "symbol" d) "side" =
        dictGet d "side" := dictGet_applyAlias_of_hasKey _ _ _ _ hs
    obtain ⟨v, hv⟩ := (hasKey_iff_dictGet d "side").mp hs
    have hact : hasKey (applyAlias "side" "action"
        (applyAlias "ticker" "symbol" d)) "action" = true :=
      (hasKey_iff_dictGet _ _).mpr ⟨v, by rw [hfill, hside1, hv]⟩
    have hact2 := hasKey_applyAlias_mono "close" "price" _ _ hact
    unfold resolve_aliases
    rw [dictGet_applyAlias_of_hasKey _ _ _ _ hact2,
        dictGet_applyAlias_of_hasKey _ _ _ _ hact,
        hfill, hside1]
  · intro hs ht
    have hs1 := hasKey_applyAlias_mono "ticker" "symbol" "close" d hs
    have hs2 := hasKey_applyAlias_mono "side" "action" "close" _ hs1
    have ht2 : hasKey (applyAlias "side" "action"
        (applyAlias "ticker" "symbol" d)) "price" = false := by
      rw [hasKey_applyAlias_of_ne _ _ _ _ (by decide),
          hasKey_applyAlias_of_ne _ _ _ _ (by decide)]
      exact ht
    have hfill := applyAlias_fills "close" "price" _ hs2 ht2
    have hclose2 : dictGet (applyAlias "side" "action"
        (applyAlias "ticker" "symbol" d)) "close" = dictGet d "close" := by
      rw [dictGet_applyAlias_of_hasKey _ _ _ _ hs1,
          dictGet_applyAlias_of_hasKey _ _ _ _ hs]
    obtain ⟨v, hv⟩ := (hasKey_iff_dictGet d "close").mp hs
    have hpr : hasKey (applyAlias "close" "price" (applyAlias "side" "action"
        (applyAlias "ticker" "symbol" d))) "price" = true :=
      (hasKey_iff_dictGet _ _).mpr ⟨v, by rw [hfill, hclose2, hv]⟩
    unfold resolve_aliases
    rw [dictGet_applyAlias_of_hasKey _ _ _ _ hpr, hfill, hclose2]
  · intro hs ht
    have hs1 := hasKey_applyAlias_mono "ticker" "symbol" "quantity" d hs
    have hs2 := hasKey_applyAlias_mono "side" "action" "quantity" _ hs1
    have hs3 := hasKey_applyAlias_mono "close" "price" "quantity" _ hs2
    have ht3 : hasKey (applyAlias "close" "price" (applyAlias "side" "action"
        (applyAlias "ticker" "symbol" d))) "qty" = false := by
      rw [hasKey_applyAlias_of_ne _ _ _ _ (by decide),
          hasKey_applyAlias_of_ne _ _ _ _ (by decide),
          hasKey_applyAlias_of_ne _ _ _ _ (by decide)]
      exact ht
    have hq : dictGet (applyAlias "close" "price" (applyAlias "side" "action"
        (applyAlias "ticker" "symbol" d))) "quantity" =
        dictGet d "quantity" := by
      rw [dictGet_applyAlias_of_hasKey _ _ _ _ hs2,
          dictGet_applyAlias_of_hasKey _ _ _ _ hs1,
          dictGet_applyAlias_of_hasKey _ _ _ _ hs]
    unfold resolve_aliases
    rw [applyAlias_fills "quantity" "qty" _ hs3 ht3, hq]

/-- C8 amended witness: the rule conclusions evaluated on the spec's
example payload. -/
theorem resolve_aliases_spec_witness :
    dictGet (resolve_aliases
        [("ticker", .str "AAPL"), ("side", .str "buy"),
         ("close", .num (451/2))]) "symbol" = some (.str "AAPL") ∧
    dictGet (resolve_aliases
        [("ticker", .str "AAPL"), ("side", .str "buy"),
         ("close", .num (451/2))]) "ticker" = some (.str "AAPL") ∧
    dictGet (resolve_aliases
        [("ticker", .str "AAPL"), ("side", .str "buy"),
         ("close", .num (451/2))]) "action" = some (.str "buy") := by
  obtain ⟨hpres, -, hsym, hact, -, -, -⟩ := resolve_aliases_spec
    [("ticker", .str "AAPL"), ("side", .str "buy"), ("close", .num (451/2))]
  refine ⟨?_, ?_, ?_⟩
  · rw [hsym rfl rfl]; rfl
  · rw [hpres "ticker" rfl]; rfl
  · rw [hact rfl rfl]; rfl

/-! ## Webhook validation (`main.py`) -/

/-- Python `str.lower()` for the ASCII strings this code receives
(`Char.toLower` lower-cases exactly the ASCII letters). -/
def pyLower (s : String) : String := String.mk (s.data.map Char.toLower)

/-- The validated `Alert` Pydantic model of `main.py`: every field
optional. -/
structure Alert where
  symbol : Option String
  action : Option String
  price : Option ℚ
  qty : Option ℚ
  comment : Option String
deriving DecidableEq, Repr

/-- Pydantic population of an aliased field with `populate_by_name`: the
alias is consulted first, then the field name. -/
def fieldLookup (d : List (String × Value)) (aliasKey fieldKey : String) :
    Option Value :=
  match dictGet d aliasKey with
  | some v => some v
  | none => dictGet d fieldKey

/-- Pydantic lax coercion to `Optional[str]`: absent values and strings
pass, numbers are rejected with a validation error. -/
def coerceStr : Option Value → Except Unit (Option String)
  | none => .ok none
  | some (.str s) => .ok (some s)
  | some (.num _) => .error ()

/-- Pydantic lax coercion to `Optional[float]`: absent values and numbers
pass; a string passes when it is numeric (modelled with the same decimal
shape the salvage regex accepts, which covers this repository's senders). -/
def coerceFloat : Option Value → Except Unit (Option ℚ)
  | none => .ok none
  | some (.num q) => .ok (some q)
  | some (.str s) =>
    if isNumericValue s.data then .ok (some (parseNumeric s.data))
    else .error ()

/-- `_validate_alert_dict` (`main.py`): the manual alias fills of
`resolve_aliases` followed by Pydantic validation of the `Alert` model. -/
def validate_alert_dict (d : List (String × Value)) : Except Unit Alert :=
  let d' := resolve_aliases d
  match coerceStr (fieldLookup d' "ticker" "symbol"),
        coerceStr (fieldLookup d' "side" "action"),
        coerceFloat (fieldLookup d' "close" "price"),
        coerceFloat (fieldLookup d' "quantity" "qty"),
        coerceStr (dictGet d' "comment") with
  | .ok symbol, .ok action, .ok price, .ok qty, .ok comment =>
    .ok { symbol := symbol, action := action, price := price, qty := qty,
          comment := comment }
  | _, _, _, _, _ => .error ()

/-- What the `/webhook` handler produces: `HTTPException(status, detail)`
or the normalized success dict. -/
inductive WebhookResult where
  | httpException (status : ℕ) (detail : String)
  | ok (symbol : Option String) (action : Option String) (price : Option ℚ)
      (qty : Option ℚ) (comment : Option String)
deriving DecidableEq, Repr

/-- The tuple of the webhook's trading-fields gate, in source order. -/
def TRADING_KEYS : List String :=
  ["symbol", "ticker", "action", "side", "price", "close"]

/-- The `/webhook` handler of `main.py` on an already-extracted payload
dict: the trading-fields gate, Pydantic validation, then the two business
checks (`not normalized["symbol"]` is Python-falsy for both a missing and
an empty symbol; the action check allows `None`); every rejection is an
HTTP 400. -/
def webhook (payload : List (String × Value)) : WebhookResult :=
  if !(TRADING_KEYS.any (fun k => hasKey payload k)) then
    .httpException 400
      "Payload missing trading fields. Provide at least symbol/ticker and action/side."
  else
    match validate_alert_dict payload with
    | .error _ => .httpException 400 "Invalid alert payload"
    | .ok alert =>
      if alert.symbol = none ∨ alert.symbol = some "" then
        .httpException 400 "Missing symbol/ticker"
      else if alert.action.map pyLower = none ∨
          alert.action.map pyLower = some "buy" ∨
          alert.action.map pyLower = some "sell" then
        .ok alert.symbol (alert.action.map pyLower) alert.price alert.qty
          alert.comment
      else
        .httpException 400 "action/side must be buy or sell"

/-- C9 counterexample: a payload carrying only a symbol — no side and no
sizing input at all — is accepted by the webhook, so neither the claimed
"side not in {buy, sell}" rejection (an absent side passes) nor any
"no sizing input" rejection exists. -/
theorem webhook_accepts_unsized_sideless :
    webhook [("symbol", .str "AAPL")] = .ok (some "AAPL") none none none none :=
  rfl

/-- C9 amended: the webhook rejects exactly: payloads with none of the six
trading keys, payloads failing Pydantic validation, a missing or empty
symbol, and a present action whose lowercase is not buy/sell (an absent
action is allowed, and no sizing-input check exists); every rejection is a
client-input HTTP 400 error, and this handler raises no broker errors. -/
theorem webhook_rejections (payload : List (String × Value)) :
    ((∃ status detail, webhook payload = .httpException status detail) ↔
      (TRADING_KEYS.any (fun k => hasKey payload k) = false ∨
       validate_alert_dict payload = .error () ∨
       (∃ alert, validate_alert_dict payload = .ok alert ∧
         (alert.symbol = none ∨ alert.symbol = some "" ∨
          (∃ a, alert.action = some a ∧
            pyLower a ≠ "buy" ∧ pyLower a ≠ "sell"))))) ∧
    (∀ status detail, webhook payload = .httpException status detail →
      status = 400) := by
  by_cases hgate : TRADING_KEYS.any (fun k => hasKey payload k) = false
  · have hw : webhook payload = .httpException 400
        "Payload missing trading fields. Provide at least symbol/ticker and action/side." := by
      unfold webhook
      rw [if_pos (by rw [hgate]; rfl)]
    refine ⟨⟨fun _ => Or.inl hgate, fun _ => ⟨400, _, hw⟩⟩, ?_⟩
    intro st dt h
    rw [hw] at h
    injection h with h1 _
    exact h1.symm
  · have hgate' : TRADING_KEYS.any (fun k => hasKey payload k) = true := by
      revert hgate
      cases TRADING_KEYS.any (fun k => hasKey payload k) <;> simp
    obtain ⟨u, hval⟩ | ⟨alert, hval⟩ :
        (∃ u, validate_alert_dict payload = .error u) ∨
        (∃ a, validate_alert_dict payload = .ok a) := by
      rcases validate_alert_dict payload with u | a
      · exact Or.inl ⟨u, rfl⟩
      · exact Or.inr ⟨a, rfl⟩
    · cases u
      have hw : webhook payload = .httpException 400 "Invalid alert payload" := by
        unfold webhook
        rw [if_neg (by simp [hgate']), hval]
      refine ⟨⟨fun _ => Or.inr (Or.inl hval), fun _ => ⟨400, _, hw⟩⟩, ?_⟩
      intro st dt h
      rw [hw] at h
      injection h with h1 _
      exact h1.symm
    · by_cases hsym : alert.symbol = none ∨ alert.symbol = some ""
      · have hw : webhook payload = .httpException 400 "Missing symbol/ticker" := by
          unfold webhook
          rw [if_neg (by simp [hgate']), hval]
          dsimp only
          rw [if_pos hsym]
        refine ⟨⟨?_, fun _ => ⟨400, _, hw⟩⟩, ?_⟩
        · intro _
          refine Or.inr (Or.inr ⟨alert, hval, ?_⟩)
          rcases hsym with h | h
          · exact Or.inl h
          · exact Or.inr (Or.inl h)
        · intro st dt h
          rw [hw] at h
          injection h with h1 _
          exact h1.symm
      · by_cases hact : alert.action.map pyLower = none ∨
            alert.action.map pyLower = some "buy" ∨
            alert.action.map pyLower = some "sell"
        · have hw : webhook payload = .ok alert.symbol
              (alert.action.map pyLower) alert.price alert.qty alert.comment := by
            unfold webhook
            rw [if_neg (by simp [hgate']), hval]
            dsimp only
            rw [if_neg hsym, if_pos hact]
          refine ⟨⟨?_, ?_⟩, ?_⟩
          · rintro ⟨st, dt, h⟩
            rw [hw] at h
            exact absurd h (by simp)
          · rintro (h | h | ⟨alert', hval', hbad⟩)
            · exact absurd h hgate
            · rw [hval] at h; exact absurd h (by simp)
            · rw [hval] at hval'
              injection hval' with he
              subst he
              rcases hbad with h | h | ⟨a, ha, hb, hs⟩
              · exact absurd (Or.inl h) hsym
              · exact absurd (Or.inr h) hsym
              · rw [ha] at hact
                rcases hact with h | h | h
                · exact absurd h (by simp)
                · exact (hb (Option.some.inj (by simpa using h))).elim
                · exact (hs (Option.some.inj (by simpa using h))).elim
          · intro st dt h
            rw [hw] at h
            exact absurd h (by simp)
        · have hw : webhook payload = .httpException 400
              "action/side must be buy or sell" := by
            unfold webhook
            rw [if_neg (by simp [hgate']), hval]
            dsimp only
            rw [if_neg hsym, if_neg hact]
          refine ⟨⟨?_, fun _ => ⟨400, _, hw⟩⟩, ?_⟩
          · intro _
            refine Or.inr (Or.inr ⟨alert, hval, Or.inr (Or.inr ?_)⟩)
            rcases halt : alert.action with _ | a
            · exact absurd (by rw [halt]; exact Or.inl rfl) hact
            · refine ⟨a, rfl, ?_, ?_⟩
              · intro hb
                exact hact (Or.inr (Or.inl (by rw [halt]; simp [hb])))
              · intro hs
                exact hact (Or.inr (Or.inr (by rw [halt]; simp [hs])))
          · intro st dt h
            rw [hw] at h
            injection h with h1 _
            exact h1.symm

/-- C9 amended witness: a buy/sell-violating action is rejected with a 400,
instantiating the status clause of the rejection theorem. -/
theorem webhook_rejections_witness :
    webhook [("symbol", .str "AAPL"), ("side", .str "hold")] =
      .httpException 400 "action/side must be buy or sell" ∧ (400 : ℕ) = 400 :=
  ⟨rfl, (webhook_rejections [("symbol", .str "AAPL"), ("side", .str "hold")]).2
    400 "action/side must be buy or sell" rfl⟩

end TVWebhook
